import Mathlib

/-!
Verification development for the "excel-ai" spreadsheet-analysis service.

The repository contains two near-duplicate FastAPI services
(`src/agent_bot/main.py` and `src/app/main.py`) built on pandas.  We give a
shallow embedding of their core logic:

* a `Table` is an ordered list of named columns; each column is either
  numeric (pandas dtype kind in "biufc", modelled with `ℚ`) or textual
  (object dtype, modelled with `String`); a cell may be missing (pandas
  `NaN` / `None`, modelled with `Option`);
* the five task handlers `analyze_summary`, `analyze_clean`,
  `analyze_describe` (black-box statistics, out of scope), `analyze_visualize`
  and `analyze_forecast` are translated from the source;
* `process_command` is the chat command dispatcher of `agent_bot`;
* `load_dataframe` is the extension-dispatching file loader, parameterised
  over the byte-level decoders (pandas `read_excel` / `read_csv`), which the
  source treats as black boxes.

Python string operations (`strip`, `lower`, `split`, `startswith`,
`endswith`, slicing) are re-implemented over `List Char` so that concrete
commands evaluate inside the kernel.
-/

namespace ExcelAI

/-! ### Python string primitives -/

/-- `str.lower()` (ASCII, which is all the source ever feeds it). -/
def strLower (s : String) : String := ⟨s.toList.map Char.toLower⟩

/-- Drop leading whitespace characters from a character list. -/
def dropWS : List Char → List Char
  | [] => []
  | c :: cs => if c.isWhitespace then dropWS cs else c :: cs

/-- `str.strip()`: remove leading and trailing whitespace. -/
def strStrip (s : String) : String :=
  ⟨((dropWS ((dropWS s.toList).reverse)).reverse)⟩

/-- Helper for `str.split()`: cut a character list into maximal runs of
non-whitespace characters, accumulating the current (reversed) run. -/
def wordsAux : List Char → List Char → List (List Char)
  | [], acc => if acc.isEmpty then [] else [acc.reverse]
  | c :: cs, acc =>
    if c.isWhitespace then
      if acc.isEmpty then wordsAux cs [] else acc.reverse :: wordsAux cs []
    else wordsAux cs (c :: acc)

/-- `str.split()` with no argument: split on whitespace runs, no empty parts. -/
def strSplit (s : String) : List String := (wordsAux s.toList []).map List.asString

/-- `str.startswith(p)`. -/
def strStartsWith (s p : String) : Bool := p.toList.isPrefixOf s.toList

/-- `str.endswith(p)`. -/
def strEndsWith (s p : String) : Bool := p.toList.reverse.isPrefixOf s.toList.reverse

/-- `s[n:]`. -/
def strDropLeft (s : String) (n : Nat) : String := ⟨s.toList.drop n⟩

/-! ### Data model -/

/-- A column of the in-memory dataset.  `num` covers the pandas dtypes of
kind `"biufc"` (`ℚ` abstracts the numeric values); `txt` covers object
columns (strings).  A `none` cell is a missing value (`NaN`). -/
inductive Column
  | num (cells : List (Option ℚ))
  | txt (cells : List (Option String))
deriving DecidableEq, Repr

/-- A table: the ordered sequence of named columns of a `DataFrame`. -/
abbrev Table := List (String × Column)

/-- An `HTTPException` raised by a handler. -/
structure HTTPError where
  status : Nat
  detail : String
deriving DecidableEq, Repr

/-- The non-missing values of a column's cell list, in row order
(pandas `dropna`). -/
def nonmissing {α : Type} (cells : List (Option α)) : List α := cells.filterMap id

/-- Number of missing cells in a cell list (`isnull().sum()`). -/
def countMissing {α : Type} (cells : List (Option α)) : Nat :=
  (cells.filter (fun c => c.isNone)).length

def colIsNum : Column → Bool
  | .num _ => true
  | .txt _ => false

def colLen : Column → Nat
  | .num cells => cells.length
  | .txt cells => cells.length

def colMissing : Column → Nat
  | .num cells => countMissing cells
  | .txt cells => countMissing cells

/-- `True` when the column has no missing cell. -/
def colComplete : Column → Bool
  | .num cells => cells.all (fun c => c.isSome)
  | .txt cells => cells.all (fun c => c.isSome)

/-- `True` when no column of the table has a missing cell. -/
def tableComplete (df : Table) : Bool := df.all (fun p => colComplete p.2)

/-- `df.columns` lookup: the first column carrying the given name, if any
(`name in df.columns` / `df[name]`). -/
def findCol (df : Table) (name : String) : Option Column :=
  (df.find? (fun p => p.1 = name)).map (fun p => p.2)

/-! ### Sorting (used by pandas `median` and `mode`) -/

/-- Insert into a ≤-sorted list. -/
def insertLe {α : Type} (le : α → α → Bool) (x : α) : List α → List α
  | [] => [x]
  | y :: ys => if le x y then x :: y :: ys else y :: insertLe le x ys

/-- Insertion sort by the boolean relation `le`. -/
def sortLe {α : Type} (le : α → α → Bool) : List α → List α
  | [] => []
  | x :: xs => insertLe le x (sortLe le xs)

def sortQ (xs : List ℚ) : List ℚ := sortLe (fun a b => decide (a ≤ b)) xs

/-- Lexicographic comparison of character lists (code-point order, the order
Python and pandas sort strings by). -/
def lexLe : List Char → List Char → Bool
  | [], _ => true
  | _ :: _, [] => false
  | a :: as, b :: bs => if a < b then true else if b < a then false else lexLe as bs

def strLe (a b : String) : Bool := lexLe a.toList b.toList

def sortS (xs : List String) : List String := sortLe strLe xs

/-- Distinct values of a list, keeping first occurrences. -/
def dedupAux : List String → List String → List String
  | [], _ => []
  | x :: xs, seen =>
    if seen.any (fun y => y = x) then dedupAux xs seen
    else x :: dedupAux xs (x :: seen)

def dedupFirst (xs : List String) : List String := dedupAux xs []

/-- Number of occurrences of `v` in `xs`. -/
def countEq (xs : List String) (v : String) : Nat :=
  (xs.filter (fun y => y = v)).length

/-! ### pandas statistics -/

/-- `Series.median()` over the non-missing values: sort, take the middle
element, or the average of the two middle elements; `NaN` (here `none`)
when there is nothing to take the median of. -/
def median (xs : List ℚ) : Option ℚ :=
  let s := sortQ xs
  let n := s.length
  if n = 0 then none
  else if n % 2 = 1 then some (s.getD (n / 2) 0)
  else some ((s.getD (n / 2 - 1) 0 + s.getD (n / 2) 0) / 2)

/-- `Series.mean()` over the non-missing values; `NaN` (here `none`) on an
empty column. -/
def mean (xs : List ℚ) : Option ℚ :=
  if xs.isEmpty then none else some (xs.sum / (xs.length : ℚ))

/-- The largest multiplicity attained in `xs`. -/
def maxFreq (xs : List String) : Nat := (xs.map (fun x => countEq xs x)).foldr max 0

/-- `Series.mode()` (missing values already removed): the distinct values of
maximal multiplicity, in sorted order. -/
def modeList (xs : List String) : List String :=
  (sortS (dedupFirst xs)).filter (fun v => countEq xs v = maxFreq xs)

/-- `mode().iloc[0]` guarded by `mode().empty`: the first (smallest) value of
maximal multiplicity, when one exists. -/
def modeFirst (xs : List String) : Option String := (modeList xs).head?

/-! ### Task handlers (`src/agent_bot/main.py`, identical logic in
`src/app/main.py`) -/

/-- The JSON payload built by `analyze_summary`. -/
structure Summary where
  rows : Nat
  cols : Nat
  columns : List String
  missing_values : Nat
  dtypes : List (String × String)
deriving DecidableEq, Repr

/-- `df.shape[0]`: the common row count (pandas keeps all columns the same
length; an empty frame has zero rows). -/
def nrows (df : Table) : Nat :=
  match df with
  | [] => 0
  | (_, c) :: _ => colLen c

/-- `str(dtype)` for a column under this embedding's two dtype classes. -/
def dtypeStr : Column → String
  | .num _ => "float64"
  | .txt _ => "object"

/-- `analyze_summary`: shape, column names, total missing-cell count, dtypes. -/
def analyze_summary (df : Table) : Summary :=
  { rows := nrows df
    cols := df.length
    columns := df.map (fun p => p.1)
    missing_values := (df.map (fun p => colMissing p.2)).sum
    dtypes := df.map (fun p => (p.1, dtypeStr p.2)) }

/-- The per-column body of `analyze_clean`'s loop: numeric columns are
`fillna`-ed with the column median (`fillna(NaN)` on an all-missing column
is a no-op, since the fill value is itself missing); other columns are
`fillna`-ed with `mode().iloc[0]`, or `""` when the mode series is empty. -/
def cleanColumn : Column → Column
  | .num cells =>
    match median (nonmissing cells) with
    | none => .num cells
    | some m => .num (cells.map (fun c => some (c.getD m)))
  | .txt cells =>
    let fill := (modeFirst (nonmissing cells)).getD ""
    .txt (cells.map (fun c => some (c.getD fill)))

/-- `analyze_clean` without the spreadsheet serialisation: `df.copy()`, then
fill each column independently. -/
def analyze_clean (df : Table) : Table :=
  df.map (fun p => (p.1, cleanColumn p.2))

/-- `df.select_dtypes(include="number").columns`: names of the numeric
columns, in original column order. -/
def numericCols (df : Table) : List String :=
  (df.filter (fun p => colIsNum p.2)).map (fun p => p.1)

/-- `analyze_visualize`, abstracted to the ZIP directory it produces: the
entry names `f"{col}.png"` written, in loop order, for the first three
numeric columns; a 400 error when there is no numeric column.  (The PNG
bytes themselves come from the black-box plotting library.) -/
def analyze_visualize (df : Table) : Except HTTPError (List String) :=
  if (numericCols df).isEmpty then
    .error ⟨400, "No numeric columns to visualize."⟩
  else
    .ok (((numericCols df).take 3).map (fun col => col ++ ".png"))

/-- `analyze_forecast` without the spreadsheet serialisation: validate the
target column, then build the one-row one-column frame
`pd.DataFrame({target: [df[target].mean()]})`.  The single cell is `none`
exactly when the mean is `NaN` (all values missing). -/
def analyze_forecast (df : Table) (target : String) : Except HTTPError Table :=
  match findCol df target with
  | none => .error ⟨400, "Column '" ++ target ++ "' not found in dataset."⟩
  | some (.txt _) =>
    .error ⟨400, "Column '" ++ target ++ "' must be numeric for forecasting."⟩
  | some (.num cells) => .ok [(target, Column.num [mean (nonmissing cells)])]

/-! ### Chat command dispatcher (`process_command`, `src/agent_bot/main.py`) -/

/-- The value a chat request sends back: a plain `{"message": ...}` JSON, a
structured result, or one of the handlers' streamed artifacts.  The
`describe` payload is the black-box `describe()`/`corr()` statistics, which
the specification places out of scope, so the constructor records only that
this branch was taken. -/
inductive ChatResponse
  | message (s : String)
  | summaryR (r : Summary)
  | cleanR (t : Table)
  | describeR
  | visualizeR (entries : List String)
  | forecastR (t : Table)
deriving DecidableEq, Repr

/-- The loop `for part in parts[1:]: if part.startswith("target="): target =
part[len("target="):]; break`, starting from the list it iterates over. -/
def findTarget : List String → Option String
  | [] => none
  | p :: ps =>
    if strStartsWith p "target=" then some (strDropLeft p 7) else findTarget ps

/-- The target `process_command` extracts from a chat message: the command is
stripped and lowercased first, then split on whitespace, and the first
remaining token starting with `target=` supplies the value. -/
def commandTarget (command : String) : Option String :=
  findTarget (strSplit (strLower (strStrip command))).tail

def helpMessage : String :=
  "Unrecognized command. Available commands: summary, clean, describe, visualize, forecast target=<column>"

def forecastPrompt : String :=
  "Please specify the target column, e.g. 'forecast target=Sales'"

/-- `process_command`: dispatch a chat message against the in-memory table
(`_dataframe`, `none` when nothing was uploaded).  Handler `HTTPException`s
propagate as `Except.error`. -/
def process_command (st : Option Table) (command : String) :
    Except HTTPError ChatResponse :=
  match st with
  | none => .ok (.message "No data uploaded yet. Please upload a dataset first.")
  | some df =>
    let cmd := strLower (strStrip command)
    if strStartsWith cmd "summary" then .ok (.summaryR (analyze_summary df))
    else if strStartsWith cmd "clean" then .ok (.cleanR (analyze_clean df))
    else if strStartsWith cmd "describe" then .ok .describeR
    else if strStartsWith cmd "visualize" then
      (analyze_visualize df).map .visualizeR
    else if strStartsWith cmd "forecast" then
      match commandTarget command with
      | none => .ok (.message forecastPrompt)
      | some t =>
        if t = "" then .ok (.message forecastPrompt)
        else (analyze_forecast df t).map .forecastR
    else .ok (.message helpMessage)

/-! ### Table loader (`load_dataframe`) -/

/-- `load_dataframe`: dispatch on the lowercased filename's extension and
decode.  The decoders (`pd.read_excel` / `pd.read_csv`) are black-box
parameters; `none` models a decoder raising on malformed content.  Every
exception inside the `try` — including the `ValueError` for an unsupported
extension — is re-raised as an `HTTPException` with status 400. -/
def load_dataframe (readExcel readCsv : List Nat → Option Table)
    (filename : String) (content : List Nat) : Except HTTPError Table :=
  let fn := strLower filename
  if strEndsWith fn ".xlsx" || strEndsWith fn ".xls" then
    match readExcel content with
    | some df => .ok df
    | none => .error ⟨400, "Failed to read file: malformed spreadsheet content"⟩
  else if strEndsWith fn ".csv" then
    match readCsv content with
    | some df => .ok df
    | none => .error ⟨400, "Failed to read file: malformed delimited text content"⟩
  else
    .error ⟨400, "Failed to read file: Unsupported file format. Please upload .xls/.xlsx or .csv"⟩

/-! ### Handler effect on the shared table slot

The Python handlers receive the module-global `_dataframe` and only read it:
`analyze_clean` starts with `cleaned = df.copy()` and fills the copy, never
the original, and no handler assigns the global.  Each step below is the
handler as a state transformer on the table it was handed: the pair's first
component is the table after the call. -/

def summaryStep (df : Table) : Table × Summary := (df, analyze_summary df)

def cleanStep (df : Table) : Table × Table :=
  (df, analyze_clean df)

def describeStep (df : Table) : Table × Unit := (df, ())

def visualizeStep (df : Table) : Table × Except HTTPError (List String) :=
  (df, analyze_visualize df)

def forecastStep (df : Table) (target : String) :
    Table × Except HTTPError Table :=
  (df, analyze_forecast df target)

/-- The `/chat` endpoint's effect on the global slot: `process_command` reads
`_dataframe` and dispatches; nothing in it assigns the global. -/
def chatStep (st : Option Table) (command : String) :
    Option Table × Except HTTPError ChatResponse :=
  (st, process_command st command)

/-- The chat keywords `process_command` matches, in the order it tries them. -/
def commandKeywords : List String :=
  ["summary", "clean", "describe", "visualize", "forecast"]

/-! ### Supporting lemmas -/

theorem length_insertLe {α : Type} (le : α → α → Bool) (x : α) (xs : List α) :
    (insertLe le x xs).length = xs.length + 1 := by
  induction xs with
  | nil => rfl
  | cons y ys ih =>
    simp only [insertLe]
    by_cases h : le x y = true
    · simp [h]
    · simp [h, ih]

theorem length_sortLe {α : Type} (le : α → α → Bool) (xs : List α) :
    (sortLe le xs).length = xs.length := by
  induction xs with
  | nil => rfl
  | cons x xs ih => simp [sortLe, length_insertLe, ih]

theorem mem_insertLe {α : Type} (le : α → α → Bool) (x a : α) (xs : List α) :
    a ∈ insertLe le x xs ↔ a = x ∨ a ∈ xs := by
  induction xs with
  | nil => simp [insertLe]
  | cons y ys ih =>
    simp only [insertLe]
    by_cases h : le x y = true
    · simp [h]
    · simp [h, ih]
      tauto

theorem mem_sortLe {α : Type} (le : α → α → Bool) (a : α) (xs : List α) :
    a ∈ sortLe le xs ↔ a ∈ xs := by
  induction xs with
  | nil => simp [sortLe]
  | cons x xs ih => simp [sortLe, mem_insertLe, ih]

theorem mem_dedupAux (a : String) (xs : List String) :
    ∀ seen, a ∈ dedupAux xs seen ↔ a ∈ xs ∧ a ∉ seen := by
  induction xs with
  | nil => intro seen; simp [dedupAux]
  | cons x xs ih =>
    intro seen
    simp only [dedupAux]
    by_cases h : (seen.any fun y => decide (y = x)) = true
    · rw [if_pos h, ih]
      have hx : x ∈ seen := by
        rcases List.any_eq_true.mp h with ⟨y, hy, hyx⟩
        have : y = x := of_decide_eq_true hyx
        exact this ▸ hy
      constructor
      · rintro ⟨ha, hna⟩
        exact ⟨List.mem_cons_of_mem _ ha, hna⟩
      · rintro ⟨ha, hna⟩
        rcases List.mem_cons.mp ha with rfl | ha'
        · exact absurd hx hna
        · exact ⟨ha', hna⟩
    · rw [if_neg h]
      have hx : x ∉ seen := by
        intro hmem
        exact h (List.any_eq_true.mpr ⟨x, hmem, by simp⟩)
      simp only [List.mem_cons, ih]
      constructor
      · rintro (rfl | ⟨ha, hna⟩)
        · exact ⟨Or.inl rfl, hx⟩
        · exact ⟨Or.inr ha, fun hs => hna (Or.inr hs)⟩
      · rintro ⟨rfl | ha, hna⟩
        · exact Or.inl rfl
        · by_cases hax : a = x
          · exact Or.inl hax
          · exact Or.inr ⟨ha, fun hs => hs.elim hax hna⟩

theorem mem_dedupFirst (a : String) (xs : List String) :
    a ∈ dedupFirst xs ↔ a ∈ xs := by
  simp [dedupFirst, mem_dedupAux]

theorem le_foldr_max (l : List Nat) (n : Nat) (h : n ∈ l) :
    n ≤ l.foldr max 0 := by
  induction l with
  | nil => cases h
  | cons m l ih =>
    rcases List.mem_cons.mp h with rfl | h'
    · exact Nat.le_max_left _ _
    · exact le_trans (ih h') (Nat.le_max_right _ _)

theorem foldr_max_mem (l : List Nat) (h : l ≠ []) : l.foldr max 0 ∈ l := by
  induction l with
  | nil => exact absurd rfl h
  | cons m l ih =>
    rcases eq_or_ne l [] with rfl | hl
    · simp
    · rcases Nat.le_total (l.foldr max 0) m with hle | hle
      · simp [Nat.max_eq_left hle]
      · simp only [List.foldr_cons, Nat.max_eq_right hle]
        exact List.mem_cons_of_mem _ (ih hl)

theorem countEq_eq_zero_of_not_mem {xs : List String} {y : String}
    (h : y ∉ xs) : countEq xs y = 0 := by
  simp only [countEq, List.length_eq_zero]
  rw [List.filter_eq_nil_iff]
  intro a ha
  simp only [decide_eq_true_eq]
  rintro rfl
  exact h ha

theorem countEq_le_maxFreq (xs : List String) (y : String) :
    countEq xs y ≤ maxFreq xs := by
  by_cases h : y ∈ xs
  · exact le_foldr_max _ _ (List.mem_map_of_mem (fun x => countEq xs x) h)
  · simp [countEq_eq_zero_of_not_mem h]

theorem maxFreq_attained {xs : List String} (h : xs ≠ []) :
    ∃ v ∈ xs, countEq xs v = maxFreq xs := by
  have hmap : xs.map (fun x => countEq xs x) ≠ [] := by
    simpa using h
  have hmem := foldr_max_mem _ hmap
  rcases List.mem_map.mp hmem with ⟨v, hv, hcount⟩
  exact ⟨v, hv, hcount⟩

theorem modeFirst_spec {xs : List String} {v : String}
    (h : modeFirst xs = some v) :
    v ∈ xs ∧ ∀ y, countEq xs y ≤ countEq xs v := by
  have hmem : v ∈ modeList xs := by
    cases hl : modeList xs with
    | nil => simp [modeFirst, hl] at h
    | cons a l =>
      simp [modeFirst, hl] at h
      simp [h, hl]
  rcases List.mem_filter.mp hmem with ⟨hsort, hcnt⟩
  have hx : v ∈ xs := (mem_dedupFirst _ _).mp ((mem_sortLe _ _ _).mp hsort)
  have hclean : countEq xs v = maxFreq xs := of_decide_eq_true hcnt
  exact ⟨hx, fun y => hclean ▸ countEq_le_maxFreq xs y⟩

theorem modeFirst_isSome {xs : List String} (h : xs ≠ []) :
    ∃ v, modeFirst xs = some v := by
  rcases maxFreq_attained h with ⟨v, hv, hcnt⟩
  have hmem : v ∈ modeList xs := by
    refine List.mem_filter.mpr ⟨?_, by simp [hcnt]⟩
    exact (mem_sortLe _ _ _).mpr ((mem_dedupFirst _ _).mpr hv)
  cases hl : modeList xs with
  | nil => rw [hl] at hmem; cases hmem
  | cons a l => exact ⟨a, by simp [modeFirst, hl]⟩

theorem median_isSome {xs : List ℚ} (h : xs ≠ []) :
    ∃ m, median xs = some m := by
  have hlen : (sortQ xs).length ≠ 0 := by
    simp only [sortQ, length_sortLe]
    simpa using h
  simp only [median]
  by_cases h2 : (sortQ xs).length % 2 = 1
  · exact ⟨_, by rw [if_neg hlen, if_pos h2]⟩
  · exact ⟨_, by rw [if_neg hlen, if_neg h2]⟩

theorem nonmissing_eq_nil_iff {α : Type} (cells : List (Option α)) :
    nonmissing cells = [] ↔ ∀ c ∈ cells, c = none := by
  simp only [nonmissing, List.filterMap_eq_nil_iff, id]

theorem map_getD_of_complete {α : Type} {cells : List (Option α)}
    (h : ∀ c ∈ cells, c.isSome) (fill : α) :
    cells.map (fun c => some (c.getD fill)) = cells := by
  induction cells with
  | nil => rfl
  | cons c cs ih =>
    have hc := h c (List.mem_cons_self _ _)
    cases c with
    | none => simp at hc
    | some v => simp [ih (fun d hd => h d (List.mem_cons_of_mem _ hd))]

theorem nonmissing_ne_nil_of_complete {α : Type} {cells : List (Option α)}
    (hne : cells ≠ []) (h : ∀ c ∈ cells, c.isSome) :
    nonmissing cells ≠ [] := by
  intro hnil
  rcases cells with _ | ⟨c, cs⟩
  · exact hne rfl
  · have hc := h c (List.mem_cons_self _ _)
    have := (nonmissing_eq_nil_iff _).mp hnil c (List.mem_cons_self _ _)
    rw [this] at hc
    simp at hc

theorem wordsAux_head (l : List Char) :
    ∀ acc, acc ≠ [] → (wordsAux l acc).head? =
      some (acc.reverse ++ l.takeWhile (fun c => !c.isWhitespace)) := by
  induction l with
  | nil =>
    intro acc hacc
    have : acc.isEmpty = false := by simpa [List.isEmpty_iff] using hacc
    simp [wordsAux, this]
  | cons c cs ih =>
    intro acc hacc
    have hne : acc.isEmpty = false := by simpa [List.isEmpty_iff] using hacc
    by_cases hc : c.isWhitespace
    · simp [wordsAux, hc, hne, List.takeWhile_cons]
    · have hrec := ih (c :: acc) (by simp)
      simp only [wordsAux, if_neg hc]
      rw [hrec, List.takeWhile_cons, if_pos (by simp [hc])]
      simp

theorem strSplit_head (c : Char) (cs : List Char) (s : String)
    (hs : s.toList = c :: cs) (hc : c.isWhitespace = false) :
    (strSplit s).headD "" =
      List.asString ((c :: cs).takeWhile (fun c => !c.isWhitespace)) := by
  have h1 : wordsAux (c :: cs) [] = wordsAux cs [c] := by
    simp [wordsAux, hc]
  have h2 := wordsAux_head cs [c] (by simp)
  simp only [strSplit, hs, h1]
  cases hw : wordsAux cs [c] with
  | nil => rw [hw] at h2; simp at h2
  | cons t ts =>
    rw [hw] at h2
    simp only [List.head?_cons, Option.some.injEq] at h2
    simp [h2, List.takeWhile_cons, hc]

theorem isPrefixOf_takeWhile (p : List Char)
    (hp : ∀ c ∈ p, c.isWhitespace = false) :
    ∀ l : List Char, p.isPrefixOf l = true →
      p.isPrefixOf (l.takeWhile (fun c => !c.isWhitespace)) = true := by
  induction p with
  | nil => intro l _; exact List.isPrefixOf_nil_left
  | cons a as ih =>
    intro l h
    cases l with
    | nil => simp [List.isPrefixOf] at h
    | cons b bs =>
      simp only [List.isPrefixOf, Bool.and_eq_true, beq_iff_eq] at h
      obtain ⟨rfl, hrest⟩ := h
      have ha : a.isWhitespace = false := hp a (List.mem_cons_self _ _)
      rw [List.takeWhile_cons, if_pos (by simp [ha])]
      simp only [List.isPrefixOf, Bool.and_eq_true, beq_self_eq_true,
        true_and]
      exact ih (fun c hc => hp c (List.mem_cons_of_mem _ hc)) bs hrest

theorem startsWith_firstToken (s k : String)
    (hk : k.toList ≠ []) (hkw : ∀ c ∈ k.toList, c.isWhitespace = false)
    (h : strStartsWith s k = true) :
    strStartsWith ((strSplit s).headD "") k = true := by
  cases hl : s.toList with
  | nil =>
    rw [strStartsWith, hl] at h
    cases hkl : k.toList with
    | nil => exact absurd hkl hk
    | cons a as => rw [hkl] at h; simp [List.isPrefixOf] at h
  | cons c cs =>
    have hpre : k.toList.isPrefixOf (c :: cs) = true := by
      rw [strStartsWith, hl] at h; exact h
    by_cases hc : c.isWhitespace
    · exfalso
      cases hkl : k.toList with
      | nil => exact hk hkl
      | cons a as =>
        rw [hkl] at hpre
        simp only [List.isPrefixOf, Bool.and_eq_true, beq_iff_eq] at hpre
        have ha : a.isWhitespace = false := by
          have := hkw a (by rw [hkl]; exact List.mem_cons_self _ _)
          exact this
        rw [hpre.1] at ha
        rw [ha] at hc
        exact Bool.false_ne_true (by simp at hc)
    · have hc' : c.isWhitespace = false := by simpa using hc
      rw [strSplit_head c cs s hl hc']
      rw [strStartsWith]
      have : (List.asString ((c :: cs).takeWhile (fun c => !c.isWhitespace))).toList
          = (c :: cs).takeWhile (fun c => !c.isWhitespace) := rfl
      rw [this]
      exact isPrefixOf_takeWhile k.toList hkw (c :: cs) hpre

/-! ### Claim theorems -/

/-- Claim C1, counterexample to the statement as given: Clean on a table
whose single numeric column is entirely missing leaves the column's missing
cell in place (the fill value, `median()` of no values, is itself `NaN`),
so it is not true that every numeric column is complete after Clean. -/
theorem c1_all_missing_numeric_counterexample :
    analyze_clean [("a", Column.num [none])] = [("a", Column.num [none])] ∧
    colComplete (cleanColumn (Column.num [none])) = false := by
  exact ⟨by decide, by decide⟩

/-- Claim C1 (amended): Clean fills each column independently, preserving
shape and column order.  A numeric column with at least one non-missing
value has every missing cell replaced by the column's median over its
non-missing values, and is complete afterwards; an all-missing numeric
column is left unchanged (still missing).  A non-numeric column with at
least one non-missing value has every missing cell replaced by a value of
maximal frequency among the non-missing values; an all-missing non-numeric
column is filled with the empty string throughout. -/
theorem c1_clean_fill_rules :
    (∀ df : Table, analyze_clean df = df.map (fun p => (p.1, cleanColumn p.2))) ∧
    (∀ cells : List (Option ℚ), nonmissing cells ≠ [] →
      ∃ m, median (nonmissing cells) = some m ∧
        cleanColumn (Column.num cells) =
          Column.num (cells.map (fun c => some (c.getD m))) ∧
        colComplete (cleanColumn (Column.num cells)) = true) ∧
    (∀ cells : List (Option ℚ), nonmissing cells = [] →
      cleanColumn (Column.num cells) = Column.num cells) ∧
    (∀ cells : List (Option String), nonmissing cells ≠ [] →
      ∃ v, modeFirst (nonmissing cells) = some v ∧
        cleanColumn (Column.txt cells) =
          Column.txt (cells.map (fun c => some (c.getD v))) ∧
        v ∈ nonmissing cells ∧
        (∀ y, countEq (nonmissing cells) y ≤ countEq (nonmissing cells) v)) ∧
    (∀ cells : List (Option String), nonmissing cells = [] →
      cleanColumn (Column.txt cells) =
        Column.txt (List.replicate cells.length (some ""))) := by
  refine ⟨fun df => rfl, ?_, ?_, ?_, ?_⟩
  · intro cells hne
    rcases median_isSome hne with ⟨m, hm⟩
    refine ⟨m, hm, ?_, ?_⟩
    · simp [cleanColumn, hm]
    · simp only [cleanColumn, hm, colComplete, List.all_eq_true]
      intro c hc
      rcases List.mem_map.mp hc with ⟨d, _, rfl⟩
      rfl
  · intro cells hnil
    have hm : median (nonmissing cells) = none := by
      rw [hnil]; rfl
    simp [cleanColumn, hm]
  · intro cells hne
    rcases modeFirst_isSome hne with ⟨v, hv⟩
    rcases modeFirst_spec hv with ⟨hmem, hmax⟩
    exact ⟨v, hv, by simp [cleanColumn, hv], hmem, hmax⟩
  · intro cells hnil
    have hv : modeFirst (nonmissing cells) = none := by
      rw [hnil]; rfl
    have hall : ∀ c ∈ cells, c = none := (nonmissing_eq_nil_iff _).mp hnil
    simp only [cleanColumn, hv, Option.getD_none, Column.txt.injEq]
    rw [List.map_congr_left (g := fun _ => some "")
      (fun c hc => by rw [hall c hc]; rfl)]
    exact List.map_const' cells (some "")

/-- Claim C1 witness: the amended rules applied to concrete columns —
`[1, •, 3]` is filled with its median `2`; `["x", •, "x", "y"]` is filled
with its modal value `"x"`; the all-missing columns behave as stated. -/
theorem c1_clean_fill_rules_witness :
    (nonmissing [some (1:ℚ), none, some 3] ≠ [] ∧
      ∃ m, median (nonmissing [some (1:ℚ), none, some 3]) = some m ∧
        cleanColumn (Column.num [some 1, none, some 3]) =
          Column.num ([some (1:ℚ), none, some 3].map (fun c => some (c.getD m))) ∧
        colComplete (cleanColumn (Column.num [some (1:ℚ), none, some 3])) = true) ∧
    (nonmissing [some (5:ℚ), none] = [] ∨
      cleanColumn (Column.num [none, none]) = Column.num [none, none]) ∧
    (nonmissing [some "x", none, some "x", some "y"] ≠ [] ∧
      ∃ v, modeFirst (nonmissing [some "x", none, some "x", some "y"]) = some v ∧
        cleanColumn (Column.txt [some "x", none, some "x", some "y"]) =
          Column.txt ([some "x", none, some "x", some "y"].map
            (fun c => some (c.getD v))) ∧
        v ∈ nonmissing [some "x", none, some "x", some "y"] ∧
        (∀ y, countEq (nonmissing [some "x", none, some "x", some "y"]) y ≤
          countEq (nonmissing [some "x", none, some "x", some "y"]) v)) ∧
    cleanColumn (Column.txt [none, none]) =
      Column.txt (List.replicate ([none, none] : List (Option String)).length
        (some "")) := by
  refine ⟨⟨by decide, c1_clean_fill_rules.2.1 _ (by decide)⟩,
    Or.inr (c1_clean_fill_rules.2.2.1 [none, none] (by decide)),
    ⟨by decide, c1_clean_fill_rules.2.2.2.1 _ (by decide)⟩,
    c1_clean_fill_rules.2.2.2.2 [none, none] (by decide)⟩

/-- Claim C4: Clean on a table that already has no missing cell returns the
table unchanged (same shape, column order and cell values). -/
theorem c4_clean_fixed_point (df : Table) (h : tableComplete df = true) :
    analyze_clean df = df := by
  induction df with
  | nil => rfl
  | cons p rest ih =>
    rw [tableComplete, List.all_cons, Bool.and_eq_true] at h
    obtain ⟨hcol, hrest⟩ := h
    have htail : analyze_clean rest = rest := ih hrest
    have hhead : cleanColumn p.2 = p.2 := by
      cases hc : p.2 with
      | num cells =>
        rw [hc] at hcol
        have hall : ∀ c ∈ cells, c.isSome := by
          simpa [colComplete, List.all_eq_true] using hcol
        rcases eq_or_ne cells [] with rfl | hne
        · rfl
        · have hnm : nonmissing cells ≠ [] :=
            nonmissing_ne_nil_of_complete hne hall
          rcases median_isSome hnm with ⟨m, hm⟩
          simp [cleanColumn, hm, map_getD_of_complete hall]
      | txt cells =>
        rw [hc] at hcol
        have hall : ∀ c ∈ cells, c.isSome := by
          simpa [colComplete, List.all_eq_true] using hcol
        simp [cleanColumn, map_getD_of_complete hall]
    calc analyze_clean (p :: rest)
        = (p.1, cleanColumn p.2) :: analyze_clean rest := rfl
      _ = p :: rest := by rw [hhead, htail]

/-- Claim C4 witness: a concrete complete table is returned unchanged. -/
theorem c4_clean_fixed_point_witness :
    tableComplete [("n", Column.num [some 5, some 7, some 6]),
      ("t", Column.txt [some "u", some "v"])] = true ∧
    analyze_clean [("n", Column.num [some 5, some 7, some 6]),
      ("t", Column.txt [some "u", some "v"])] =
      [("n", Column.num [some 5, some 7, some 6]),
        ("t", Column.txt [some "u", some "v"])] :=
  ⟨by decide, c4_clean_fixed_point _ (by decide)⟩

/-- Claim C2: for an existing numeric target column, Forecast returns the
one-row one-column table carrying, under the target's name, the column's
mean; when the column has at least one non-missing value that cell is the
arithmetic mean (sum divided by count) of the non-missing values. -/
theorem c2_forecast_mean (df : Table) (target : String)
    (cells : List (Option ℚ)) (h : findCol df target = some (Column.num cells)) :
    analyze_forecast df target =
      .ok [(target, Column.num [mean (nonmissing cells)])] ∧
    (nonmissing cells ≠ [] →
      mean (nonmissing cells) =
        some ((nonmissing cells).sum / ((nonmissing cells).length : ℚ))) := by
  constructor
  · simp [analyze_forecast, h]
  · intro hne
    rw [mean, if_neg (by simpa [List.isEmpty_iff] using hne)]

/-- Claim C2 witness: Forecast on target `"Sales"` with values
`[10, 20, 30, missing]` returns the one-row table `{"Sales": 20.0}`. -/
theorem c2_forecast_mean_witness :
    findCol [("Sales", Column.num [some 10, some 20, some 30, none])] "Sales" =
      some (Column.num [some 10, some 20, some 30, none]) ∧
    analyze_forecast [("Sales", Column.num [some 10, some 20, some 30, none])]
      "Sales" = .ok [("Sales", Column.num [some 20])] := by
  refine ⟨rfl, ?_⟩
  rw [(c2_forecast_mean [("Sales", Column.num [some 10, some 20, some 30, none])]
    "Sales" [some 10, some 20, some 30, none] rfl).1]
  have hm := (c2_forecast_mean [("Sales", Column.num [some 10, some 20, some 30, none])]
    "Sales" [some 10, some 20, some 30, none] rfl).2 (by decide)
  rw [hm]
  simp only [nonmissing, List.filterMap_cons, id, List.filterMap_nil]
  norm_num

/-- Claim C10: Forecast on an existing numeric target column whose values
are all missing succeeds — the single returned cell is `NaN`
(`float(mean())` of no values, modelled as `none`), not a client error. -/
theorem c10_forecast_all_missing (df : Table) (target : String)
    (cells : List (Option ℚ)) (h : findCol df target = some (Column.num cells))
    (hm : nonmissing cells = []) :
    analyze_forecast df target = .ok [(target, Column.num [none])] := by
  have : mean (nonmissing cells) = none := by rw [hm]; rfl
  simp [analyze_forecast, h, this]

/-- Claim C10 witness: an all-missing numeric column forecasts to a
one-cell `NaN` table. -/
theorem c10_forecast_all_missing_witness :
    findCol [("a", Column.num [none, none])] "a" =
      some (Column.num [none, none]) ∧
    nonmissing ([none, none] : List (Option ℚ)) = [] ∧
    analyze_forecast [("a", Column.num [none, none])] "a" =
      .ok [("a", Column.num [none])] :=
  ⟨rfl, by decide, c10_forecast_all_missing _ "a" [none, none] rfl (by decide)⟩

/-- Claim C3, counterexample to the statement as given: the dispatcher
lowercases the whole chat message before extracting the target, so
`"forecast target=Revenue"` extracts `"revenue"`, not `"Revenue"`; against a
table whose column is literally named `"Revenue"` the handler is then asked
for the nonexistent column `"revenue"`. -/
theorem c3_lowercased_target_counterexample :
    commandTarget "forecast target=Revenue" = some "revenue" ∧
    some "revenue" ≠ some "Revenue" ∧
    process_command (some [("Revenue", Column.num [some 1, some 2])])
      "forecast target=Revenue" =
      .error ⟨400, "Column 'revenue' not found in dataset."⟩ :=
  ⟨by decide, by decide, by rfl⟩

/-- Claim C3 (amended): the forecast target is extracted from the stripped
and lowercased command as the text immediately following `target=` in the
first remaining token that starts with it — so the extracted name is
lowercased, and `"forecast target=Revenue"` yields `"revenue"`; the message
`"forecast"` alone returns the prompt for a target without invoking the
forecast handler. -/
theorem c3_target_extraction :
    (∀ (pre : List String) (tok : String) (post : List String),
      (∀ p ∈ pre, strStartsWith p "target=" = false) →
      strStartsWith tok "target=" = true →
      findTarget (pre ++ tok :: post) = some (strDropLeft tok 7)) ∧
    commandTarget "forecast target=Revenue" = some "revenue" ∧
    (∀ df : Table,
      process_command (some df) "forecast" = .ok (.message forecastPrompt)) := by
  refine ⟨?_, by decide, fun df => rfl⟩
  intro pre tok post hpre htok
  induction pre with
  | nil =>
    rw [List.nil_append, findTarget, if_pos htok]
  | cons p ps ih =>
    have hp : strStartsWith p "target=" = false :=
      hpre p (List.mem_cons_self _ _)
    rw [List.cons_append, findTarget, if_neg (by rw [hp]; exact Bool.false_ne_true)]
    exact ih (fun q hq => hpre q (List.mem_cons_of_mem _ hq))

/-- Claim C3 witness: the extraction rule applied to the concrete token
lists of `"forecast target=sales"`, and the bare `"forecast"` prompt on a
concrete table. -/
theorem c3_target_extraction_witness :
    findTarget (["extra"] ++ "target=sales" :: []) =
      some (strDropLeft "target=sales" 7) ∧
    commandTarget "forecast target=Revenue" = some "revenue" ∧
    process_command (some [("a", Column.num [some 1])]) "forecast" =
      .ok (.message forecastPrompt) :=
  ⟨c3_target_extraction.1 ["extra"] "target=sales" [] (by decide) (by decide),
    c3_target_extraction.2.1,
    c3_target_extraction.2.2 [("a", Column.num [some 1])]⟩

/-- Claim C5: on a table with at least four numeric columns, Visualize
produces an archive with exactly three entries, named `<column>.png` after
the first three numeric columns in the table's original column order, and
listed in that order. -/
theorem c5_visualize_first_three (df : Table)
    (h : 4 ≤ (numericCols df).length) :
    ∃ a b c rest, numericCols df = a :: b :: c :: rest ∧
      analyze_visualize df = .ok [a ++ ".png", b ++ ".png", c ++ ".png"] := by
  match hnc : numericCols df with
  | [] => rw [hnc] at h; simp at h
  | [a] => rw [hnc] at h; simp at h
  | [a, b] => rw [hnc] at h; simp at h
  | [a, b, c] => rw [hnc] at h; simp at h
  | a :: b :: c :: d :: rest =>
    refine ⟨a, b, c, d :: rest, rfl, ?_⟩
    rw [analyze_visualize, hnc]
    rfl

/-- Claim C5 witness: a concrete table with four numeric columns (and an
interleaved text column) yields exactly the first three numeric names. -/
theorem c5_visualize_first_three_witness :
    4 ≤ (numericCols [("w", Column.num [some 1]), ("s", Column.txt [some "u"]),
      ("x", Column.num [some 2]), ("y", Column.num [some 3]),
      ("z", Column.num [some 4])]).length ∧
    ∃ a b c rest,
      numericCols [("w", Column.num [some 1]), ("s", Column.txt [some "u"]),
        ("x", Column.num [some 2]), ("y", Column.num [some 3]),
        ("z", Column.num [some 4])] = a :: b :: c :: rest ∧
      analyze_visualize [("w", Column.num [some 1]), ("s", Column.txt [some "u"]),
        ("x", Column.num [some 2]), ("y", Column.num [some 3]),
        ("z", Column.num [some 4])] =
        .ok [a ++ ".png", b ++ ".png", c ++ ".png"] :=
  ⟨by decide, c5_visualize_first_three _ (by decide)⟩

/-- Claim C6: Forecast raises a 400-class client error exactly when the
target column is absent or non-numeric; when the target exists and is
numeric it returns a result and no error. -/
theorem c6_forecast_error_iff :
    (∀ df : Table, ∀ target : String,
      (∃ e, analyze_forecast df target = .error e ∧ e.status = 400) ↔
        (findCol df target = none ∨
          ∃ cells, findCol df target = some (Column.txt cells))) ∧
    (∀ df : Table, ∀ target : String, ∀ cells : List (Option ℚ),
      findCol df target = some (Column.num cells) →
      ∃ t, analyze_forecast df target = .ok t) := by
  constructor
  · intro df target
    cases h : findCol df target with
    | none =>
      refine iff_of_true ⟨⟨400, "Column '" ++ target ++ "' not found in dataset."⟩, ?_, rfl⟩
        (Or.inl rfl)
      simp [analyze_forecast, h]
    | some col =>
      cases col with
      | num cells =>
        refine iff_of_false ?_ ?_
        · rintro ⟨e, he, _⟩
          rw [show analyze_forecast df target = .ok [(target, Column.num [mean (nonmissing cells)])] from by
            simp [analyze_forecast, h]] at he
          cases he
        · rintro (h' | ⟨c, h'⟩) <;> simp at h'
      | txt cells =>
        refine iff_of_true
          ⟨⟨400, "Column '" ++ target ++ "' must be numeric for forecasting."⟩, ?_, rfl⟩
          (Or.inr ⟨cells, rfl⟩)
        simp [analyze_forecast, h]
  · intro df target cells h
    exact ⟨[(target, Column.num [mean (nonmissing cells)])],
      by simp [analyze_forecast, h]⟩

/-- Claim C6 witness: the no-error direction applied to a concrete table
with an existing numeric target. -/
theorem c6_forecast_error_iff_witness :
    findCol [("s", Column.num [some 4, none])] "s" =
      some (Column.num [some 4, none]) ∧
    ∃ t, analyze_forecast [("s", Column.num [some 4, none])] "s" = .ok t :=
  ⟨rfl, c6_forecast_error_iff.2 [("s", Column.num [some 4, none])] "s"
    [some 4, none] rfl⟩

/-- Claim C7: the loader decodes by extension of the lowercased filename —
spreadsheet extensions go to the spreadsheet decoder, `.csv` to the
delimited-text decoder, anything else is rejected with the unsupported-format
message — and every outcome, including a decoder failure on malformed
content, is a normal result or a 400-class error, never an uncaught
exception. -/
theorem c7_loader_dispatch (readExcel readCsv : List Nat → Option Table)
    (filename : String) (content : List Nat) :
    ((strEndsWith (strLower filename) ".xlsx" = true ∨
        strEndsWith (strLower filename) ".xls" = true) →
      ((∀ df, readExcel content = some df →
          load_dataframe readExcel readCsv filename content = .ok df) ∧
        (readExcel content = none →
          ∃ e, load_dataframe readExcel readCsv filename content = .error e ∧
            e.status = 400))) ∧
    (strEndsWith (strLower filename) ".xlsx" = false →
      strEndsWith (strLower filename) ".xls" = false →
      strEndsWith (strLower filename) ".csv" = true →
      ((∀ df, readCsv content = some df →
          load_dataframe readExcel readCsv filename content = .ok df) ∧
        (readCsv content = none →
          ∃ e, load_dataframe readExcel readCsv filename content = .error e ∧
            e.status = 400))) ∧
    (strEndsWith (strLower filename) ".xlsx" = false →
      strEndsWith (strLower filename) ".xls" = false →
      strEndsWith (strLower filename) ".csv" = false →
      load_dataframe readExcel readCsv filename content =
        .error ⟨400,
          "Failed to read file: Unsupported file format. Please upload .xls/.xlsx or .csv"⟩) ∧
    ((∃ df, load_dataframe readExcel readCsv filename content = .ok df) ∨
      (∃ e, load_dataframe readExcel readCsv filename content = .error e ∧
        e.status = 400)) := by
  refine ⟨?_, ?_, ?_, ?_⟩
  · intro hext
    have hcond : (strEndsWith (strLower filename) ".xlsx" ||
        strEndsWith (strLower filename) ".xls") = true := by
      rcases hext with h | h <;> simp [h]
    constructor
    · intro df hdf
      simp [load_dataframe, hcond, hdf]
    · intro hnone
      exact ⟨⟨400, "Failed to read file: malformed spreadsheet content"⟩,
        by simp [load_dataframe, hcond, hnone], rfl⟩
  · intro h1 h2 h3
    have hcond : (strEndsWith (strLower filename) ".xlsx" ||
        strEndsWith (strLower filename) ".xls") = false := by simp [h1, h2]
    constructor
    · intro df hdf
      simp [load_dataframe, hcond, h3, hdf]
    · intro hnone
      exact ⟨⟨400, "Failed to read file: malformed delimited text content"⟩,
        by simp [load_dataframe, hcond, h3, hnone], rfl⟩
  · intro h1 h2 h3
    have hcond : (strEndsWith (strLower filename) ".xlsx" ||
        strEndsWith (strLower filename) ".xls") = false := by simp [h1, h2]
    simp [load_dataframe, hcond, h3]
  · rw [load_dataframe]
    by_cases hcond : (strEndsWith (strLower filename) ".xlsx" ||
        strEndsWith (strLower filename) ".xls") = true
    · rw [if_pos hcond]
      cases hdf : readExcel content with
      | none =>
        exact Or.inr ⟨⟨400, "Failed to read file: malformed spreadsheet content"⟩,
          rfl, rfl⟩
      | some df => exact Or.inl ⟨df, rfl⟩
    · rw [if_neg hcond]
      by_cases hcsv : strEndsWith (strLower filename) ".csv" = true
      · rw [if_pos hcsv]
        cases hdf : readCsv content with
        | none =>
          exact Or.inr ⟨⟨400, "Failed to read file: malformed delimited text content"⟩,
            rfl, rfl⟩
        | some df => exact Or.inl ⟨df, rfl⟩
      · rw [if_neg hcsv]
        exact Or.inr ⟨⟨400,
          "Failed to read file: Unsupported file format. Please upload .xls/.xlsx or .csv"⟩,
          rfl, rfl⟩

/-- Claim C7 witness: the three extension branches exercised on concrete
filenames (including an uppercase spreadsheet extension and a failing
decoder). -/
theorem c7_loader_dispatch_witness :
    (strEndsWith (strLower "Data.XLSX") ".xlsx" = true ∨
      strEndsWith (strLower "Data.XLSX") ".xls" = true) ∧
    load_dataframe (fun _ => some []) (fun _ => none) "Data.XLSX" [1, 2] =
      .ok [] ∧
    (∃ e, load_dataframe (fun _ => some []) (fun _ => none) "d.csv" [1, 2] =
      .error e ∧ e.status = 400) ∧
    load_dataframe (fun _ => some []) (fun _ => some []) "notes.txt" [1, 2] =
      .error ⟨400,
        "Failed to read file: Unsupported file format. Please upload .xls/.xlsx or .csv"⟩ :=
  ⟨Or.inl (by decide),
    (c7_loader_dispatch (fun _ => some []) (fun _ => none) "Data.XLSX" [1, 2]).1
      (Or.inl (by decide)) |>.1 [] rfl,
    ((c7_loader_dispatch (fun _ => some []) (fun _ => none) "d.csv" [1, 2]).2.1
      (by decide) (by decide) (by decide)).2 rfl,
    (c7_loader_dispatch (fun _ => some []) (fun _ => some []) "notes.txt"
      [1, 2]).2.2.1 (by decide) (by decide) (by decide)⟩

/-- Claim C8: with a table loaded, a chat command whose first
whitespace-delimited keyword (after stripping and lowercasing) does not
prefix-match any of summary, clean, describe, visualize or forecast gets
the help message enumerating the valid commands, not an error. -/
theorem c8_unmatched_command_help (df : Table) (command : String)
    (h : ∀ k ∈ commandKeywords,
      strStartsWith ((strSplit (strLower (strStrip command))).headD "") k = false) :
    process_command (some df) command = .ok (.message helpMessage) := by
  have hcmd : ∀ k ∈ commandKeywords,
      strStartsWith (strLower (strStrip command)) k = false := by
    intro k hk
    cases hsw : strStartsWith (strLower (strStrip command)) k with
    | false => rfl
    | true =>
      exfalso
      have hprops : ∀ q ∈ commandKeywords,
          q.toList ≠ [] ∧ ∀ c ∈ q.toList, c.isWhitespace = false := by decide
      have hknil : k.toList ≠ [] := (hprops k hk).1
      have hkws : ∀ c ∈ k.toList, c.isWhitespace = false := (hprops k hk).2
      have := startsWith_firstToken (strLower (strStrip command)) k hknil hkws hsw
      rw [h k hk] at this
      cases this
  have hs := hcmd "summary" (by simp [commandKeywords])
  have hc := hcmd "clean" (by simp [commandKeywords])
  have hd := hcmd "describe" (by simp [commandKeywords])
  have hv := hcmd "visualize" (by simp [commandKeywords])
  have hf := hcmd "forecast" (by simp [commandKeywords])
  simp [process_command, hs, hc, hd, hv, hf]

/-- Claim C8 witness: a concrete unrecognized chat message gets the help
message. -/
theorem c8_unmatched_command_help_witness :
    (∀ k ∈ commandKeywords,
      strStartsWith ((strSplit (strLower (strStrip "  Hello there  "))).headD "")
        k = false) ∧
    process_command (some [("a", Column.num [some 1])]) "  Hello there  " =
      .ok (.message helpMessage) :=
  ⟨by decide, c8_unmatched_command_help [("a", Column.num [some 1])]
    "  Hello there  " (by decide)⟩

/-- Claim C9: no handler writes the shared table slot — each handler step
hands back the table it was given, the chat endpoint leaves the global slot
exactly as it found it, and Clean's output is a separate table built from a
copy. -/
theorem c9_handlers_preserve_table (df : Table) (target : String)
    (st : Option Table) (command : String) :
    (summaryStep df).1 = df ∧ (cleanStep df).1 = df ∧
    (describeStep df).1 = df ∧ (visualizeStep df).1 = df ∧
    (forecastStep df target).1 = df ∧ (chatStep st command).1 = st ∧
    (cleanStep df).2 = analyze_clean df :=
  ⟨rfl, rfl, rfl, rfl, rfl, rfl, rfl⟩

end ExcelAI
